import Mathlib

/-!
Shallow embedding of `src/awx/ui/client/features/output/slide.service.js`
(the sliding-window cache manager for job output), together with proofs
about the claims of the specification.

Conventions of the embedding:
* JS numbers appearing as counters, displacements and line numbers are
  modelled as `ℤ` (all values reachable in the service are finite integers).
* A JS object used as a counter-keyed map (`this.records`, `this.uuids`) is
  modelled as `JsMap`: a finite set of present keys plus the stored value.
* The asynchronous promise chain serialises all mutating work, so each
  public operation is modelled as a state transformer executed atomically
  on the settled state, mirroring the order in which callbacks are queued.
* External collaborators are parameters: `fetch` models `api.getRange`,
  `apiMax` the value of `api.getMaxCounter()` (`none` when non-finite),
  `hgt k` the value returned by the k-th `getScrollHeight()` call of an
  operation.  Sink calls carry no data back, so only their occurrence is
  recorded in the emitted `SlideOp` trace.
-/

namespace Slide

/-- A JavaScript object used as a finite map with integer (counter) keys:
the set of present keys together with the stored value for each key. -/
structure JsMap (V : Type) where
  keys : Finset ℤ
  val : ℤ → V

/-- Reading `obj[k]`: `some` value when the key is present, else `none`. -/
def JsMap.lookup {V : Type} (m : JsMap V) (k : ℤ) : Option V :=
  if k ∈ m.keys then some (m.val k) else none

/-- Writing `obj[k] = v`. -/
def JsMap.insert {V : Type} (m : JsMap V) (k : ℤ) (v : V) : JsMap V :=
  ⟨Insert.insert k m.keys, Function.update m.val k v⟩

/-- Deleting every key of the closed integer band `[lo, hi]`, the effect of
a JS loop running `delete obj[i]` for every integer `i` from `lo` to `hi`. -/
def JsMap.eraseBand {V : Type} (m : JsMap V) (lo hi : ℤ) : JsMap V :=
  ⟨m.keys.filter (fun k => ¬ (lo ≤ k ∧ k ≤ hi)), m.val⟩

/-- Writing a batch of key/value pairs in list order (later pairs win). -/
def JsMap.insertList {V : Type} (m : JsMap V) (ps : List (ℤ × V)) : JsMap V :=
  ps.foldl (fun acc p => acc.insert p.1 p.2) m

/-- Source line 15: `checkRangeOverlap(range, other)`. -/
def checkRangeOverlap (range other : ℤ × ℤ) : Bool :=
  decide (max range.2 other.2 - min range.1 other.1 ≤
    (range.2 - range.1) + (other.2 - other.1))

/-- Source line 54: `getOverlapArray(range, other)`; `none` models the JS
return value `false` for non-overlapping ranges. -/
def getOverlapArray (range other : ℤ × ℤ) : Option (ℤ × ℤ) :=
  if checkRangeOverlap range other then some (range.1 - other.1, other.2 - range.2)
  else none

/-- Source line 75: `getBoundedRange(range, other)`. -/
def getBoundedRange (range other : ℤ × ℤ) : ℤ × ℤ :=
  (max range.1 other.1, min range.2 other.2)

/-- One job event as consumed by the service: its counter, the line span
bounds and the identity token (`uuid`). -/
structure Event where
  counter : ℤ
  start_line : ℤ
  end_line : ℤ
  uuid : String
  deriving DecidableEq

/-- The value stored per counter in `this.records`. -/
structure LineSpan where
  start_line : ℤ
  end_line : ℤ
  deriving DecidableEq

/-- Window State: the two counter-keyed maps owned by the service,
`this.records` (counter to line span) and `this.uuids` (counter to
identity). -/
structure WinState where
  records : JsMap LineSpan
  uuids : JsMap String

/-- Source line 343: `getTailCounter()`, the maximum present counter, `0`
for an empty window (JS `Math.max()` of no keys is `-Infinity`, mapped to
`0` by the `isFinite` check). -/
def getTailCounter (s : WinState) : ℤ :=
  s.records.keys.max.unbot' 0

/-- Source line 349: `getHeadCounter()`, the minimum present counter, `0`
for an empty window. -/
def getHeadCounter (s : WinState) : ℤ :=
  s.records.keys.min.untop' 0

/-- Source line 362: `getRange()`. -/
def getRange (s : WinState) : ℤ × ℤ :=
  (getHeadCounter s, getTailCounter s)

/-- Source line 363: `getRecordCount()`. -/
def getRecordCount (s : WinState) : ℕ :=
  s.records.keys.card

/-- Source line 364: `getCapacity()`; the constant `OUTPUT_EVENT_LIMIT`
lives in a module missing from the sources, so it is a parameter. -/
def getCapacity (limit : ℤ) (s : WinState) : ℤ :=
  limit - getRecordCount s

/-- Source line 355: `getMaxCounter()`.  `apiMax` is the collaborator value
`api.getMaxCounter()`, `none` when that value is not finite. -/
def getMaxCounter (apiMax : Option ℤ) (s : WinState) : ℤ :=
  match apiMax with
  | some counter => max (getTailCounter s) counter
  | none => getTailCounter s

/-- Source line 110: `pushFront(events)`; filters events at or below the
current tail, then stores span and identity for each survivor. -/
def pushFront (events : List Event) (s : WinState) : WinState :=
  let tail := getTailCounter s
  let newEvents := events.filter (fun e => tail < e.counter)
  { records := s.records.insertList
      (newEvents.map (fun e => (e.counter, LineSpan.mk e.start_line e.end_line)))
    uuids := s.uuids.insertList (newEvents.map (fun e => (e.counter, e.uuid))) }

/-- Source line 125: `pushBack(events)`; filters events inside the current
`[head, tail]`, then stores span and identity for each survivor. -/
def pushBack (events : List Event) (s : WinState) : WinState :=
  let r := getRange s
  let newEvents := events.filter (fun e => e.counter < r.1 ∨ r.2 < e.counter)
  { records := s.records.insertList
      (newEvents.map (fun e => (e.counter, LineSpan.mk e.start_line e.end_line)))
    uuids := s.uuids.insertList (newEvents.map (fun e => (e.counter, e.uuid))) }

/-- The number of buffer lines `popFront(count)` asks the sink to evict:
the summed span length of the present records with counter in
`[tail - count, tail]`. -/
def popFrontLines (count : ℤ) (s : WinState) : ℤ :=
  let mx := getTailCounter s
  let mn := mx - count
  (s.records.keys.filter (fun i => mn ≤ i ∧ i ≤ mx)).sum
    (fun i => (s.records.val i).end_line - (s.records.val i).start_line)

/-- Source line 141: `popFront(count)`; a no-op for `count ≤ 0`, otherwise
deletes the records and identities of every counter in the closed band
`[tail - count, tail]` (the JS loop runs from `max` down to `min`
inclusively). -/
def popFront (count : ℤ) (s : WinState) : WinState :=
  if count ≤ 0 then s
  else
    let mx := getTailCounter s
    let mn := mx - count
    { records := s.records.eraseBand mn mx, uuids := s.uuids.eraseBand mn mx }

/-- The number of buffer lines `popBack(count)` asks the sink to evict. -/
def popBackLines (count : ℤ) (s : WinState) : ℤ :=
  let mn := getHeadCounter s
  let mx := mn + count
  (s.records.keys.filter (fun i => mn ≤ i ∧ i ≤ mx)).sum
    (fun i => (s.records.val i).end_line - (s.records.val i).start_line)

/-- Source line 170: `popBack(count)`; a no-op for `count ≤ 0`, otherwise
deletes the records and identities of every counter in the closed band
`[head, head + count]` (the JS loop runs from `min` to `max`
inclusively). -/
def popBack (count : ℤ) (s : WinState) : WinState :=
  if count ≤ 0 then s
  else
    let mn := getHeadCounter s
    let mx := mn + count
    { records := s.records.eraseBand mn mx, uuids := s.uuids.eraseBand mn mx }

/-- Source line 322: `clear()`; evicts the whole window via `popBack` when
any record is present. -/
def clear (s : WinState) : WinState :=
  if 0 < getRecordCount s then popBack (getRecordCount s) s else s

/-- One entry of the operation trace emitted by a reconciliation: the
measurement hook, the four Edge Operations and the source fetches. -/
inductive SlideOp where
  | measure
  | popBackOp (count : ℤ)
  | popFrontOp (count : ℤ)
  | getRangeCall (lo hi : ℤ)
  | pushBackOp
  | pushFrontOp
  deriving DecidableEq

/-- Source line 199: `move([low, high])`, executed to settlement.  Returns
the new Window State, the trace of hook / edge / source calls in queue
order, and the resolved scroll-height value.  The non-overlap branch is
embedded as the intended clear-then-reload sequence run to completion; in
the source, that branch's first queued step (`.then(() => this.clear())`)
returns the chain it has itself been appended to, so the adopted promise
never settles and the reload never executes.  The embedding's state space
is therefore a superset of the source's settled states, and every
universally quantified statement about settled behavior proved over it is
conservative; no claim's concrete instance below evaluates through this
branch. -/
def move (fetch : ℤ → ℤ → List Event) (hgt : ℕ → ℤ) (apiMax : Option ℤ)
    (target : ℤ × ℤ) (s : WinState) : WinState × List SlideOp × ℤ :=
  let bounds : ℤ × ℤ := (1, getMaxCounter apiMax s)
  let nr := getBoundedRange target bounds
  if nr.2 < nr.1 then (s, [SlideOp.measure], hgt 0)
  else
    let r := getRange s
    match getOverlapArray r nr with
    | none =>
      let s1 := clear s
      let clearOps : List SlideOp :=
        if 0 < getRecordCount s then [SlideOp.popBackOp (getRecordCount s)] else []
      let s2 := pushFront (fetch nr.1 nr.2) s1
      (s2, SlideOp.measure :: (clearOps ++
        [SlideOp.getRangeCall nr.1 nr.2, SlideOp.pushFrontOp, SlideOp.measure]), hgt 1)
    | some ov =>
      let s1 := if ov.1 < 0 then popBack (-ov.1) s else s
      let ops1 : List SlideOp := if ov.1 < 0 then [SlideOp.popBackOp (-ov.1)] else []
      let s2 := if ov.2 < 0 then popFront (-ov.2) s1 else s1
      let ops2 : List SlideOp := if ov.2 < 0 then [SlideOp.popFrontOp (-ov.2)] else []
      let s3 := if 0 < ov.1 then pushBack (fetch (r.1 - ov.1) r.1) s2 else s2
      let ops3 : List SlideOp :=
        if 0 < ov.1 then [SlideOp.getRangeCall (r.1 - ov.1) r.1, SlideOp.pushBackOp] else []
      let s4 := if 0 < ov.2 then pushFront (fetch r.2 (r.2 + ov.2)) s3 else s3
      let ops4 : List SlideOp :=
        if 0 < ov.2 then [SlideOp.getRangeCall r.2 (r.2 + ov.2), SlideOp.pushFrontOp] else []
      (s4, SlideOp.measure :: (ops1 ++ ops2 ++ [SlideOp.measure] ++ ops3 ++ ops4), hgt 1)

/-- The target range computed by source line 270, `getNext(displacement)`,
before it is handed to `move`; `limit` is `OUTPUT_EVENT_LIMIT`. -/
def getNextTarget (limit : ℤ) (apiMax : Option ℤ) (displacement : ℤ)
    (s : WinState) : ℤ × ℤ :=
  let r := getRange s
  let tailRoom := getMaxCounter apiMax s - r.2
  let tailDisplacement := min tailRoom displacement
  let newTail := r.2 + tailDisplacement
  let headDisplacement := if limit < newTail - r.1 then (newTail - limit) - r.1 else 0
  (r.1 + headDisplacement, r.2 + tailDisplacement)

/-- Source line 270: `getNext(displacement)`. -/
def getNext (limit : ℤ) (fetch : ℤ → ℤ → List Event) (hgt : ℕ → ℤ)
    (apiMax : Option ℤ) (displacement : ℤ) (s : WinState) :
    WinState × List SlideOp × ℤ :=
  move fetch hgt apiMax (getNextTarget limit apiMax displacement s) s

/-- The target range computed by source line 287, `getPrevious(displacement)`. -/
def getPreviousTarget (limit : ℤ) (displacement : ℤ) (s : WinState) : ℤ × ℤ :=
  let r := getRange s
  let headRoom := r.1 - 1
  let headDisplacement := min headRoom displacement
  let newHead := r.1 - headDisplacement
  let tailDisplacement := if limit < r.2 - newHead then r.2 - (newHead + limit) else 0
  (newHead, r.2 - tailDisplacement)

/-- Source line 287: `getPrevious(displacement)`. -/
def getPrevious (limit : ℤ) (fetch : ℤ → ℤ → List Event) (hgt : ℕ → ℤ)
    (apiMax : Option ℤ) (displacement : ℤ) (s : WinState) :
    WinState × List SlideOp × ℤ :=
  move fetch hgt apiMax (getPreviousTarget limit displacement s) s

/-- The target range computed by source line 304, `moveHead(displacement)`. -/
def moveHeadTarget (displacement : ℤ) (s : WinState) : ℤ × ℤ :=
  let r := getRange s
  let headRoom := r.1 - 1
  let headDisplacement := min headRoom displacement
  (r.1 + headDisplacement, r.2)

/-- Source line 304: `moveHead(displacement)`. -/
def moveHead (fetch : ℤ → ℤ → List Event) (hgt : ℕ → ℤ) (apiMax : Option ℤ)
    (displacement : ℤ) (s : WinState) : WinState × List SlideOp × ℤ :=
  move fetch hgt apiMax (moveHeadTarget displacement s) s

/-- The target range computed by source line 313, `moveTail(displacement)`:
note the `max` (not `min`) against `tailRoom`. -/
def moveTailTarget (apiMax : Option ℤ) (displacement : ℤ) (s : WinState) : ℤ × ℤ :=
  let r := getRange s
  let tailRoom := getMaxCounter apiMax s - r.2
  let tailDisplacement := max tailRoom displacement
  (r.1, r.2 + tailDisplacement)

/-- Source line 313: `moveTail(displacement)`. -/
def moveTail (fetch : ℤ → ℤ → List Event) (hgt : ℕ → ℤ) (apiMax : Option ℤ)
    (displacement : ℤ) (s : WinState) : WinState × List SlideOp × ℤ :=
  move fetch hgt apiMax (moveTailTarget apiMax displacement s) s

/-- Source line 333: `getFirst()`; `firstEvents` is the collaborator value
`api.getFirst()` and `pageSize` the constant `OUTPUT_PAGE_SIZE` (whose
module is missing from the sources). -/
def getFirst (pageSize : ℤ) (fetch : ℤ → ℤ → List Event) (hgt : ℕ → ℤ)
    (apiMax : Option ℤ) (firstEvents : List Event) (s : WinState) :
    WinState × List SlideOp × ℤ :=
  let s1 := clear s
  let s2 := pushFront firstEvents s1
  moveTail fetch hgt apiMax pageSize s2

/-- Source line 338: `getLast()`; `lastEvents` is the collaborator value
`api.getLast()`. -/
def getLast (pageSize : ℤ) (fetch : ℤ → ℤ → List Event) (hgt : ℕ → ℤ)
    (apiMax : Option ℤ) (lastEvents : List Event) (s : WinState) :
    WinState × List SlideOp × ℤ :=
  let s1 := clear s
  let s2 := pushBack lastEvents s1
  moveHead fetch hgt apiMax (-pageSize) s2

/-- The state set up by `init` (source line 80): both maps empty. -/
def initState : WinState :=
  ⟨⟨∅, fun _ => ⟨0, 0⟩⟩, ⟨∅, fun _ => ""⟩⟩

/-- The list of integers of the closed interval `[lo, hi]` in order. -/
def iccList (lo hi : ℤ) : List ℤ :=
  (List.range (hi + 1 - lo).toNat).map (fun (i : ℕ) => lo + (i : ℤ))

/-- A canonical source: one record per requested counter. -/
def stdFetch (lo hi : ℤ) : List Event :=
  (iccList lo hi).map (fun c => ⟨c, 0, 0, ""⟩)

/-- The assumption of the spec on `api.getRange`: a requested range is
answered with exactly one record per counter of the range. -/
def FetchOk (fetch : ℤ → ℤ → List Event) : Prop :=
  ∀ lo hi : ℤ, 1 ≤ lo → lo ≤ hi → (fetch lo hi).map Event.counter = iccList lo hi

/-- The corresponding assumption on a first/last page returned by the
source: one record per counter of some range of positive counters. -/
def PageOk (events : List Event) : Prop :=
  ∃ lo hi : ℤ, 1 ≤ lo ∧ events.map Event.counter = iccList lo hi

/-- A concrete window whose two maps hold every counter of `[lo, hi]`. -/
def mkWin (lo hi : ℤ) : WinState :=
  ⟨⟨Finset.Icc lo hi, fun _ => ⟨0, 0⟩⟩, ⟨Finset.Icc lo hi, fun _ => ""⟩⟩

/-- Window states whose record keys form a contiguous block of positive
counters (`Finset.Icc h t` is empty when `t < h`, covering the empty
window). -/
def GoodWin (s : WinState) : Prop :=
  ∃ h t : ℤ, 1 ≤ h ∧ s.records.keys = Finset.Icc h t

end Slide

namespace Slide

theorem keys_insert {V : Type} (m : JsMap V) (k : ℤ) (v : V) :
    (m.insert k v).keys = Insert.insert k m.keys := rfl

theorem keys_eraseBand {V : Type} (m : JsMap V) (lo hi : ℤ) :
    (m.eraseBand lo hi).keys = m.keys.filter (fun k => ¬ (lo ≤ k ∧ k ≤ hi)) := rfl

theorem keys_insertList {V : Type} (m : JsMap V) (ps : List (ℤ × V)) :
    (m.insertList ps).keys = m.keys ∪ (ps.map Prod.fst).toFinset := by
  induction ps generalizing m with
  | nil => simp [JsMap.insertList]
  | cons p ps ih =>
      simp only [JsMap.insertList, List.foldl_cons, List.map_cons, List.toFinset_cons]
      rw [show (List.foldl (fun acc q => JsMap.insert acc q.1 q.2) (m.insert p.1 p.2) ps) =
        JsMap.insertList (m.insert p.1 p.2) ps from rfl, ih, keys_insert,
        Finset.insert_union, Finset.union_insert]

theorem lookup_eraseBand {V : Type} (m : JsMap V) (lo hi k : ℤ) :
    (m.eraseBand lo hi).lookup k =
      if lo ≤ k ∧ k ≤ hi then none else m.lookup k := by
  by_cases hb : lo ≤ k ∧ k ≤ hi <;>
    by_cases hk : k ∈ m.keys <;>
      simp [JsMap.lookup, JsMap.eraseBand, Finset.mem_filter, hb, hk]

theorem mem_iccList (lo hi k : ℤ) : k ∈ iccList lo hi ↔ lo ≤ k ∧ k ≤ hi := by
  simp only [iccList, List.mem_map, List.mem_range]
  constructor
  · rintro ⟨i, hilt, rfl⟩; omega
  · intro hk
    exact ⟨(k - lo).toNat, by omega, by omega⟩

theorem map_counter_filter_gt (t : ℤ) (evs : List Event) :
    (evs.filter (fun e => decide (t < e.counter))).map Event.counter =
      (evs.map Event.counter).filter (fun c => decide (t < c)) := by
  induction evs with
  | nil => rfl
  | cons e evs ih =>
      by_cases h : t < e.counter <;> simp [List.filter_cons, h, ih]

theorem map_counter_filter_out (h t : ℤ) (evs : List Event) :
    (evs.filter (fun e => decide (e.counter < h ∨ t < e.counter))).map Event.counter =
      (evs.map Event.counter).filter (fun c => decide (c < h ∨ t < c)) := by
  induction evs with
  | nil => rfl
  | cons e evs ih =>
      by_cases hc : e.counter < h ∨ t < e.counter
      · rw [List.filter_cons_of_pos (by simpa using hc)]
        simp only [List.map_cons]
        rw [List.filter_cons_of_pos (by simpa using hc), ih]
      · rw [List.filter_cons_of_neg (by simpa using hc)]
        simp only [List.map_cons]
        rw [List.filter_cons_of_neg (by simpa using hc), ih]

theorem pushFront_keys (events : List Event) (s : WinState) :
    (pushFront events s).records.keys =
      s.records.keys ∪
        ((events.map Event.counter).filter
          (fun c => decide (getTailCounter s < c))).toFinset := by
  simp only [pushFront, keys_insertList, List.map_map]
  rw [show ((fun e : ℤ × LineSpan => e.1) ∘
      fun e : Event => (e.counter, LineSpan.mk e.start_line e.end_line)) = Event.counter
    from rfl]
  rw [map_counter_filter_gt]

theorem pushBack_keys (events : List Event) (s : WinState) :
    (pushBack events s).records.keys =
      s.records.keys ∪
        ((events.map Event.counter).filter
          (fun c => decide (c < getHeadCounter s ∨ getTailCounter s < c))).toFinset := by
  simp only [pushBack, getRange, keys_insertList, List.map_map]
  rw [show ((fun e : ℤ × LineSpan => e.1) ∘
      fun e : Event => (e.counter, LineSpan.mk e.start_line e.end_line)) = Event.counter
    from rfl]
  rw [map_counter_filter_out]

theorem max_icc (h t : ℤ) (hht : h ≤ t) : (Finset.Icc h t).max = (t : WithBot ℤ) := by
  have hne : (Finset.Icc h t).Nonempty := Finset.nonempty_Icc.mpr hht
  rw [← Finset.coe_max' hne]
  norm_cast
  exact le_antisymm
    (Finset.max'_le _ hne _ (fun b hb => (Finset.mem_Icc.mp hb).2))
    (Finset.le_max' _ t (Finset.mem_Icc.mpr ⟨hht, le_refl t⟩))

theorem min_icc (h t : ℤ) (hht : h ≤ t) : (Finset.Icc h t).min = (h : WithTop ℤ) := by
  have hne : (Finset.Icc h t).Nonempty := Finset.nonempty_Icc.mpr hht
  rw [← Finset.coe_min' hne]
  norm_cast
  exact le_antisymm
    (Finset.min'_le _ h (Finset.mem_Icc.mpr ⟨le_refl h, hht⟩))
    (Finset.le_min' _ hne _ (fun b hb => (Finset.mem_Icc.mp hb).1))

theorem getTail_icc (s : WinState) (h t : ℤ) (hk : s.records.keys = Finset.Icc h t)
    (hht : h ≤ t) : getTailCounter s = t := by
  rw [getTailCounter, hk, max_icc h t hht]; rfl

theorem getHead_icc (s : WinState) (h t : ℤ) (hk : s.records.keys = Finset.Icc h t)
    (hht : h ≤ t) : getHeadCounter s = h := by
  rw [getHeadCounter, hk, min_icc h t hht]; rfl

theorem getTail_empty (s : WinState) (hk : s.records.keys = ∅) : getTailCounter s = 0 := by
  rw [getTailCounter, hk, Finset.max_empty]; rfl

theorem getHead_empty (s : WinState) (hk : s.records.keys = ∅) : getHeadCounter s = 0 := by
  rw [getHeadCounter, hk, Finset.min_empty]; rfl

theorem getRecordCount_icc (s : WinState) (h t : ℤ)
    (hk : s.records.keys = Finset.Icc h t) :
    getRecordCount s = (t + 1 - h).toNat := by
  rw [getRecordCount, hk, Int.card_Icc]

theorem tail_le_getMaxCounter (apiMax : Option ℤ) (s : WinState) :
    getTailCounter s ≤ getMaxCounter apiMax s := by
  cases apiMax with
  | none => exact le_refl _
  | some c => exact le_max_left _ _

end Slide

namespace Slide

theorem popBack_keys_icc (s : WinState) (h t c : ℤ) (hk : s.records.keys = Finset.Icc h t)
    (hht : h ≤ t) (hc : 0 < c) :
    (popBack c s).records.keys = Finset.Icc (h + c + 1) t := by
  have hhead : getHeadCounter s = h := getHead_icc s h t hk hht
  simp only [popBack]
  rw [if_neg (by omega : ¬ c ≤ 0)]
  rw [keys_eraseBand, hk, hhead]
  ext k
  simp only [Finset.mem_filter, Finset.mem_Icc]
  omega

theorem popFront_keys_icc (s : WinState) (h t c : ℤ) (hk : s.records.keys = Finset.Icc h t)
    (hht : h ≤ t) (hc : 0 < c) :
    (popFront c s).records.keys = Finset.Icc h (t - c - 1) := by
  have htail : getTailCounter s = t := getTail_icc s h t hk hht
  simp only [popFront]
  rw [if_neg (by omega : ¬ c ≤ 0)]
  rw [keys_eraseBand, hk, htail]
  ext k
  simp only [Finset.mem_filter, Finset.mem_Icc]
  omega

theorem popBack_keys_empty (s : WinState) (c : ℤ) (hk : s.records.keys = ∅) :
    (popBack c s).records.keys = ∅ := by
  simp only [popBack]
  by_cases hc : c ≤ 0
  · rw [if_pos hc]; exact hk
  · rw [if_neg hc, keys_eraseBand, hk, Finset.filter_empty]

theorem popFront_keys_empty (s : WinState) (c : ℤ) (hk : s.records.keys = ∅) :
    (popFront c s).records.keys = ∅ := by
  simp only [popFront]
  by_cases hc : c ≤ 0
  · rw [if_pos hc]; exact hk
  · rw [if_neg hc, keys_eraseBand, hk, Finset.filter_empty]

theorem clear_keys (s : WinState) (h t : ℤ) (hk : s.records.keys = Finset.Icc h t) :
    (clear s).records.keys = ∅ := by
  by_cases hht : h ≤ t
  · have hcount : getRecordCount s = (t + 1 - h).toNat := getRecordCount_icc s h t hk
    have hpos : 0 < getRecordCount s := by rw [hcount]; omega
    have hhead : getHeadCounter s = h := getHead_icc s h t hk hht
    rw [clear, if_pos hpos]
    simp only [popBack]
    rw [if_neg (by omega : ¬ (getRecordCount s : ℤ) ≤ 0)]
    rw [keys_eraseBand, hk, hhead, hcount]
    ext k
    simp only [Finset.mem_filter, Finset.mem_Icc, Finset.not_mem_empty, iff_false]
    omega
  · have : s.records.keys = ∅ := by rw [hk, Finset.Icc_eq_empty (by omega)]
    have hcount : getRecordCount s = 0 := by rw [getRecordCount, this, Finset.card_empty]
    rw [clear, if_neg (by omega)]
    exact this

theorem filter_gt_toFinset (lo hi t : ℤ) :
    ((iccList lo hi).filter (fun c => decide (t < c))).toFinset =
      Finset.Icc (max lo (t + 1)) hi := by
  ext k
  simp only [List.mem_toFinset, List.mem_filter, mem_iccList, Finset.mem_Icc,
    decide_eq_true_eq]
  omega

theorem filter_out_toFinset (lo hi hd tl : ℤ) :
    ((iccList lo hi).filter (fun c => decide (c < hd ∨ tl < c))).toFinset =
      Finset.Icc lo (min hi (hd - 1)) ∪ Finset.Icc (max lo (tl + 1)) hi := by
  ext k
  simp only [List.mem_toFinset, List.mem_filter, mem_iccList, Finset.mem_union,
    Finset.mem_Icc, decide_eq_true_eq]
  omega

theorem pushFront_keys_fetch (events : List Event) (s : WinState) (lo hi : ℤ)
    (hev : events.map Event.counter = iccList lo hi) :
    (pushFront events s).records.keys =
      s.records.keys ∪ Finset.Icc (max lo (getTailCounter s + 1)) hi := by
  rw [pushFront_keys, hev, filter_gt_toFinset]

theorem pushBack_keys_fetch (events : List Event) (s : WinState) (lo hi : ℤ)
    (hev : events.map Event.counter = iccList lo hi) :
    (pushBack events s).records.keys =
      s.records.keys ∪ (Finset.Icc lo (min hi (getHeadCounter s - 1)) ∪
        Finset.Icc (max lo (getTailCounter s + 1)) hi) := by
  rw [pushBack_keys, hev, filter_out_toFinset]

end Slide

namespace Slide

/-- The clamped target range `move` computes first: the input bounded by
`[1, getMaxCounter()]`. -/
def moveBounds (apiMax : Option ℤ) (target : ℤ × ℤ) (s : WinState) : ℤ × ℤ :=
  getBoundedRange target (1, getMaxCounter apiMax s)

/-- The state transformation of `move`'s overlapping branch: the two trims,
then the two growths, in queue order, for overlap vector `ov` and pre-trim
range `r`. -/
def shiftStep (fetch : ℤ → ℤ → List Event) (r ov : ℤ × ℤ) (s : WinState) : WinState :=
  let s1 := if ov.1 < 0 then popBack (-ov.1) s else s
  let s2 := if ov.2 < 0 then popFront (-ov.2) s1 else s1
  let s3 := if 0 < ov.1 then pushBack (fetch (r.1 - ov.1) r.1) s2 else s2
  if 0 < ov.2 then pushFront (fetch r.2 (r.2 + ov.2)) s3 else s3

theorem move_noop (fetch : ℤ → ℤ → List Event) (hgt : ℕ → ℤ) (apiMax : Option ℤ)
    (target : ℤ × ℤ) (s : WinState)
    (hb : (moveBounds apiMax target s).2 < (moveBounds apiMax target s).1) :
    move fetch hgt apiMax target s = (s, [SlideOp.measure], hgt 0) := by
  simp only [moveBounds] at hb
  simp only [move]
  rw [if_pos hb]

theorem move_reload_state (fetch : ℤ → ℤ → List Event) (hgt : ℕ → ℤ) (apiMax : Option ℤ)
    (target : ℤ × ℤ) (s : WinState)
    (hb : ¬ (moveBounds apiMax target s).2 < (moveBounds apiMax target s).1)
    (hov : getOverlapArray (getRange s) (moveBounds apiMax target s) = none) :
    (move fetch hgt apiMax target s).1 =
      pushFront (fetch (moveBounds apiMax target s).1 (moveBounds apiMax target s).2)
        (clear s) := by
  simp only [moveBounds] at hb hov ⊢
  simp only [move]
  rw [if_neg hb]
  simp only [getBoundedRange] at hov ⊢
  rw [hov]

theorem move_shift_state (fetch : ℤ → ℤ → List Event) (hgt : ℕ → ℤ) (apiMax : Option ℤ)
    (target : ℤ × ℤ) (s : WinState) (ov : ℤ × ℤ)
    (hb : ¬ (moveBounds apiMax target s).2 < (moveBounds apiMax target s).1)
    (hov : getOverlapArray (getRange s) (moveBounds apiMax target s) = some ov) :
    (move fetch hgt apiMax target s).1 = shiftStep fetch (getRange s) ov s := by
  simp only [moveBounds] at hb hov
  simp only [move]
  rw [if_neg hb]
  simp only [getBoundedRange] at hov ⊢
  rw [hov]
  simp only [shiftStep]

end Slide

namespace Slide

theorem shiftStep_keys (fetch : ℤ → ℤ → List Event) (hF : FetchOk fetch) (s : WinState)
    (h0 t0 nh nt : ℤ) (hk : s.records.keys = Finset.Icc h0 t0) (hh0 : 1 ≤ h0)
    (hht : h0 ≤ t0) (hnh : 1 ≤ nh) (hnhnt : nh ≤ nt) (hnht : nh ≤ t0) (hhnt : h0 ≤ nt) :
    ∃ H T : ℤ, 1 ≤ H ∧ nh ≤ H ∧ T ≤ nt ∧
      (shiftStep fetch (h0, t0) (h0 - nh, nt - t0) s).records.keys = Finset.Icc H T := by
  simp only [shiftStep]
  rcases lt_trichotomy h0 nh with ha | ha | ha
  · -- the target's low edge is above the current head: popBack trims
    have hc1 : (h0 - nh : ℤ) < 0 := by omega
    have hc3 : ¬ (0 : ℤ) < h0 - nh := by omega
    rw [if_pos hc1, if_neg hc3]
    have hk1 : (popBack (-(h0 - nh)) s).records.keys = Finset.Icc (nh + 1) t0 := by
      rw [popBack_keys_icc s h0 t0 (-(h0 - nh)) hk hht (by omega)]
      congr 1
      omega
    rcases lt_trichotomy nt t0 with hb | hb | hb
    · -- the target's high edge is below the current tail: popFront trims
      rw [if_pos (by omega : (nt - t0 : ℤ) < 0), if_neg (by omega : ¬ (0 : ℤ) < nt - t0)]
      by_cases hne1 : nh + 1 ≤ t0
      · have hk2 : (popFront (-(nt - t0)) (popBack (-(h0 - nh)) s)).records.keys =
            Finset.Icc (nh + 1) (nt - 1) := by
          rw [popFront_keys_icc _ (nh + 1) t0 (-(nt - t0)) hk1 hne1 (by omega)]
          congr 1
          omega
        exact ⟨nh + 1, nt - 1, by omega, by omega, by omega, hk2⟩
      · exfalso
        omega
    · rw [if_neg (by omega : ¬ (nt - t0 : ℤ) < 0), if_neg (by omega : ¬ (0 : ℤ) < nt - t0)]
      exact ⟨nh + 1, t0, by omega, by omega, by omega, hk1⟩
    · rw [if_neg (by omega : ¬ (nt - t0 : ℤ) < 0), if_pos (by omega : (0 : ℤ) < nt - t0)]
      rw [show t0 + (nt - t0) = nt from by ring]
      by_cases hne1 : nh + 1 ≤ t0
      · have htl1 : getTailCounter (popBack (-(h0 - nh)) s) = t0 :=
          getTail_icc _ _ _ hk1 hne1
        rw [pushFront_keys_fetch _ _ t0 nt (hF t0 nt (by omega) (by omega)), hk1, htl1]
        refine ⟨nh + 1, nt, by omega, by omega, le_refl nt, ?_⟩
        ext k
        simp only [Finset.mem_union, Finset.mem_Icc]
        omega
      · have hk1e : (popBack (-(h0 - nh)) s).records.keys = ∅ := by
          rw [hk1]
          exact Finset.Icc_eq_empty (by omega)
        have htl1 : getTailCounter (popBack (-(h0 - nh)) s) = 0 := getTail_empty _ hk1e
        rw [pushFront_keys_fetch _ _ t0 nt (hF t0 nt (by omega) (by omega)), hk1e, htl1]
        refine ⟨t0, nt, by omega, by omega, le_refl nt, ?_⟩
        ext k
        simp only [Finset.mem_union, Finset.mem_Icc, Finset.not_mem_empty, false_or]
        omega
  · -- the low edges agree: no trim or growth at the low end
    rw [if_neg (by omega : ¬ (h0 - nh : ℤ) < 0), if_neg (by omega : ¬ (0 : ℤ) < h0 - nh)]
    rcases lt_trichotomy nt t0 with hb | hb | hb
    · rw [if_pos (by omega : (nt - t0 : ℤ) < 0), if_neg (by omega : ¬ (0 : ℤ) < nt - t0)]
      have hk2 : (popFront (-(nt - t0)) s).records.keys = Finset.Icc h0 (nt - 1) := by
        rw [popFront_keys_icc s h0 t0 (-(nt - t0)) hk hht (by omega)]
        congr 1
        omega
      exact ⟨h0, nt - 1, hh0, by omega, by omega, hk2⟩
    · rw [if_neg (by omega : ¬ (nt - t0 : ℤ) < 0), if_neg (by omega : ¬ (0 : ℤ) < nt - t0)]
      exact ⟨h0, t0, hh0, by omega, by omega, hk⟩
    · rw [if_neg (by omega : ¬ (nt - t0 : ℤ) < 0), if_pos (by omega : (0 : ℤ) < nt - t0)]
      rw [show t0 + (nt - t0) = nt from by ring]
      have htl : getTailCounter s = t0 := getTail_icc s h0 t0 hk hht
      rw [pushFront_keys_fetch _ _ t0 nt (hF t0 nt (by omega) (by omega)), hk, htl]
      refine ⟨h0, nt, hh0, by omega, le_refl nt, ?_⟩
      ext k
      simp only [Finset.mem_union, Finset.mem_Icc]
      omega
  · -- the target's low edge is below the current head: pushBack grows
    rw [if_neg (by omega : ¬ (h0 - nh : ℤ) < 0), if_pos (by omega : (0 : ℤ) < h0 - nh)]
    rw [show h0 - (h0 - nh) = nh from by ring]
    rcases lt_trichotomy nt t0 with hb | hb | hb
    · rw [if_pos (by omega : (nt - t0 : ℤ) < 0), if_neg (by omega : ¬ (0 : ℤ) < nt - t0)]
      have hk2 : (popFront (-(nt - t0)) s).records.keys = Finset.Icc h0 (nt - 1) := by
        rw [popFront_keys_icc s h0 t0 (-(nt - t0)) hk hht (by omega)]
        congr 1
        omega
      by_cases hne2 : h0 ≤ nt - 1
      · have hh2 : getHeadCounter (popFront (-(nt - t0)) s) = h0 :=
          getHead_icc _ _ _ hk2 hne2
        have ht2 : getTailCounter (popFront (-(nt - t0)) s) = nt - 1 :=
          getTail_icc _ _ _ hk2 hne2
        rw [pushBack_keys_fetch _ _ nh h0 (hF nh h0 (by omega) (by omega)), hk2, hh2, ht2]
        refine ⟨nh, nt - 1, by omega, le_refl nh, by omega, ?_⟩
        ext k
        simp only [Finset.mem_union, Finset.mem_Icc]
        omega
      · have hk2e : (popFront (-(nt - t0)) s).records.keys = ∅ := by
          rw [hk2]
          exact Finset.Icc_eq_empty (by omega)
        have hh2 : getHeadCounter (popFront (-(nt - t0)) s) = 0 := getHead_empty _ hk2e
        have ht2 : getTailCounter (popFront (-(nt - t0)) s) = 0 := getTail_empty _ hk2e
        rw [pushBack_keys_fetch _ _ nh h0 (hF nh h0 (by omega) (by omega)), hk2e, hh2, ht2]
        refine ⟨nh, nt, by omega, le_refl nh, le_refl nt, ?_⟩
        ext k
        simp only [Finset.mem_union, Finset.mem_Icc, Finset.not_mem_empty, false_or]
        omega
    · rw [if_neg (by omega : ¬ (nt - t0 : ℤ) < 0), if_neg (by omega : ¬ (0 : ℤ) < nt - t0)]
      have hh : getHeadCounter s = h0 := getHead_icc s h0 t0 hk hht
      have ht : getTailCounter s = t0 := getTail_icc s h0 t0 hk hht
      rw [pushBack_keys_fetch _ _ nh h0 (hF nh h0 (by omega) (by omega)), hk, hh, ht]
      refine ⟨nh, t0, by omega, le_refl nh, by omega, ?_⟩
      ext k
      simp only [Finset.mem_union, Finset.mem_Icc]
      omega
    · rw [if_neg (by omega : ¬ (nt - t0 : ℤ) < 0), if_pos (by omega : (0 : ℤ) < nt - t0)]
      rw [show t0 + (nt - t0) = nt from by ring]
      have hh : getHeadCounter s = h0 := getHead_icc s h0 t0 hk hht
      have ht : getTailCounter s = t0 := getTail_icc s h0 t0 hk hht
      have hk3 : (pushBack (fetch nh h0) s).records.keys = Finset.Icc nh t0 := by
        rw [pushBack_keys_fetch _ _ nh h0 (hF nh h0 (by omega) (by omega)), hk, hh, ht]
        ext k
        simp only [Finset.mem_union, Finset.mem_Icc]
        omega
      have ht3 : getTailCounter (pushBack (fetch nh h0) s) = t0 :=
        getTail_icc _ _ _ hk3 (by omega)
      rw [pushFront_keys_fetch _ _ t0 nt (hF t0 nt (by omega) (by omega)), hk3, ht3]
      refine ⟨nh, nt, by omega, le_refl nh, le_refl nt, ?_⟩
      ext k
      simp only [Finset.mem_union, Finset.mem_Icc]
      omega

end Slide

namespace Slide

theorem move_good (fetch : ℤ → ℤ → List Event) (hF : FetchOk fetch) (hgt : ℕ → ℤ)
    (apiMax : Option ℤ) (target : ℤ × ℤ) (s : WinState) (hs : GoodWin s) :
    GoodWin (move fetch hgt apiMax target s).1 ∧
      ((move fetch hgt apiMax target s).1 = s ∨
        (move fetch hgt apiMax target s).1.records.keys ⊆
          Finset.Icc (moveBounds apiMax target s).1 (moveBounds apiMax target s).2) := by
  obtain ⟨h0, t0, hh0, hk⟩ := hs
  have hnh1 : 1 ≤ (moveBounds apiMax target s).1 := by
    simp only [moveBounds, getBoundedRange]
    exact le_max_right _ _
  by_cases hval : (moveBounds apiMax target s).2 < (moveBounds apiMax target s).1
  · rw [move_noop fetch hgt apiMax target s hval]
    exact ⟨⟨h0, t0, hh0, hk⟩, Or.inl rfl⟩
  · push_neg at hval
    set nh := (moveBounds apiMax target s).1 with hnhdef
    set nt := (moveBounds apiMax target s).2 with hntdef
    have hmb : moveBounds apiMax target s = (nh, nt) := rfl
    by_cases hne : h0 ≤ t0
    · -- non-empty current window
      have hh : getHeadCounter s = h0 := getHead_icc s h0 t0 hk hne
      have ht : getTailCounter s = t0 := getTail_icc s h0 t0 hk hne
      have hr : getRange s = (h0, t0) := by
        simp only [getRange, hh, ht]
      by_cases hchk : checkRangeOverlap (h0, t0) (nh, nt) = true
      · have harith : max t0 nt - min h0 nh ≤ (t0 - h0) + (nt - nh) := by
          simpa [checkRangeOverlap] using hchk
        have hnht : nh ≤ t0 := by omega
        have hhnt : h0 ≤ nt := by omega
        have hov : getOverlapArray (getRange s) (moveBounds apiMax target s) =
            some (h0 - nh, nt - t0) := by
          rw [hr, hmb]
          simp only [getOverlapArray, hchk, if_true]
        rw [move_shift_state fetch hgt apiMax target s _ (not_lt.mpr hval) hov, hr]
        obtain ⟨H, T, hH1, hHnh, hTnt, hkey⟩ :=
          shiftStep_keys fetch hF s h0 t0 nh nt hk hh0 hne hnh1 hval hnht hhnt
        refine ⟨⟨H, T, hH1, hkey⟩, Or.inr ?_⟩
        rw [hkey]
        exact Finset.Icc_subset_Icc hHnh hTnt
      · have hov : getOverlapArray (getRange s) (moveBounds apiMax target s) = none := by
          rw [hr, hmb]
          simp only [getOverlapArray]
          rw [if_neg hchk]
        rw [move_reload_state fetch hgt apiMax target s (not_lt.mpr hval) hov, hmb]
        have hclr : (clear s).records.keys = ∅ := clear_keys s h0 t0 hk
        have htl : getTailCounter (clear s) = 0 := getTail_empty _ hclr
        have hkr : (pushFront (fetch nh nt) (clear s)).records.keys = Finset.Icc nh nt := by
          rw [pushFront_keys_fetch _ _ nh nt (hF nh nt hnh1 hval), hclr, htl]
          rw [Finset.empty_union]
          congr 1
          omega
        refine ⟨⟨nh, nt, hnh1, hkr⟩, Or.inr ?_⟩
        rw [hkr]
    · -- empty current window: always the disjoint branch
      have hke : s.records.keys = ∅ := by
        rw [hk]
        exact Finset.Icc_eq_empty (by omega)
      have hh : getHeadCounter s = 0 := getHead_empty s hke
      have ht : getTailCounter s = 0 := getTail_empty s hke
      have hr : getRange s = (0, 0) := by
        simp only [getRange, hh, ht]
      have hchk : checkRangeOverlap (0, 0) (nh, nt) = false := by
        simp only [checkRangeOverlap, decide_eq_false_iff_not]
        omega
      have hov : getOverlapArray (getRange s) (moveBounds apiMax target s) = none := by
        rw [hr, hmb]
        simp only [getOverlapArray, hchk]
        rfl
      rw [move_reload_state fetch hgt apiMax target s (not_lt.mpr hval) hov, hmb]
      have hclr : (clear s).records.keys = ∅ := clear_keys s h0 t0 hk
      have htl : getTailCounter (clear s) = 0 := getTail_empty _ hclr
      have hkr : (pushFront (fetch nh nt) (clear s)).records.keys = Finset.Icc nh nt := by
        rw [pushFront_keys_fetch _ _ nh nt (hF nh nt hnh1 hval), hclr, htl]
        rw [Finset.empty_union]
        congr 1
        omega
      refine ⟨⟨nh, nt, hnh1, hkr⟩, Or.inr ?_⟩
      rw [hkr]

end Slide

namespace Slide

theorem goodwin_init : GoodWin initState :=
  ⟨1, 0, le_refl 1, (Finset.Icc_eq_empty (by omega)).symm⟩

theorem clear_good (s : WinState) (hs : GoodWin s) : (clear s).records.keys = ∅ := by
  obtain ⟨h0, t0, _, hk⟩ := hs
  exact clear_keys s h0 t0 hk

theorem pushFront_cleared_good (events : List Event) (s : WinState)
    (hp : PageOk events) (hs : GoodWin s) : GoodWin (pushFront events (clear s)) := by
  obtain ⟨lo, hi, hlo, hev⟩ := hp
  have hclr : (clear s).records.keys = ∅ := clear_good s hs
  have htl : getTailCounter (clear s) = 0 := getTail_empty _ hclr
  refine ⟨max lo 1, hi, le_max_right _ _, ?_⟩
  rw [pushFront_keys_fetch _ _ lo hi hev, hclr, htl, Finset.empty_union]
  congr 1

theorem pushBack_cleared_good (events : List Event) (s : WinState)
    (hp : PageOk events) (hs : GoodWin s) : GoodWin (pushBack events (clear s)) := by
  obtain ⟨lo, hi, hlo, hev⟩ := hp
  have hclr : (clear s).records.keys = ∅ := clear_good s hs
  have htl : getTailCounter (clear s) = 0 := getTail_empty _ hclr
  have hhd : getHeadCounter (clear s) = 0 := getHead_empty _ hclr
  refine ⟨max lo 1, hi, le_max_right _ _, ?_⟩
  rw [pushBack_keys_fetch _ _ lo hi hev, hclr, htl, hhd, Finset.empty_union]
  ext k
  simp only [Finset.mem_union, Finset.mem_Icc]
  omega

/-- States reachable from the initial empty window by any sequence of the
public window operations, each executed to settlement, with every source
range request answered with one record per counter and first/last pages
being contiguous batches of positive counters. -/
inductive ReachableSlide : WinState → Prop where
  | init : ReachableSlide initState
  | moveStep {s : WinState} (fetch : ℤ → ℤ → List Event) (hgt : ℕ → ℤ)
      (apiMax : Option ℤ) (target : ℤ × ℤ) :
      ReachableSlide s → FetchOk fetch →
      ReachableSlide (move fetch hgt apiMax target s).1
  | nextStep {s : WinState} (limit : ℤ) (fetch : ℤ → ℤ → List Event) (hgt : ℕ → ℤ)
      (apiMax : Option ℤ) (displacement : ℤ) :
      ReachableSlide s → FetchOk fetch →
      ReachableSlide (getNext limit fetch hgt apiMax displacement s).1
  | prevStep {s : WinState} (limit : ℤ) (fetch : ℤ → ℤ → List Event) (hgt : ℕ → ℤ)
      (apiMax : Option ℤ) (displacement : ℤ) :
      ReachableSlide s → FetchOk fetch →
      ReachableSlide (getPrevious limit fetch hgt apiMax displacement s).1
  | moveHeadStep {s : WinState} (fetch : ℤ → ℤ → List Event) (hgt : ℕ → ℤ)
      (apiMax : Option ℤ) (displacement : ℤ) :
      ReachableSlide s → FetchOk fetch →
      ReachableSlide (moveHead fetch hgt apiMax displacement s).1
  | moveTailStep {s : WinState} (fetch : ℤ → ℤ → List Event) (hgt : ℕ → ℤ)
      (apiMax : Option ℤ) (displacement : ℤ) :
      ReachableSlide s → FetchOk fetch →
      ReachableSlide (moveTail fetch hgt apiMax displacement s).1
  | firstStep {s : WinState} (pageSize : ℤ) (fetch : ℤ → ℤ → List Event) (hgt : ℕ → ℤ)
      (apiMax : Option ℤ) (events : List Event) :
      ReachableSlide s → FetchOk fetch → PageOk events →
      ReachableSlide (getFirst pageSize fetch hgt apiMax events s).1
  | lastStep {s : WinState} (pageSize : ℤ) (fetch : ℤ → ℤ → List Event) (hgt : ℕ → ℤ)
      (apiMax : Option ℤ) (events : List Event) :
      ReachableSlide s → FetchOk fetch → PageOk events →
      ReachableSlide (getLast pageSize fetch hgt apiMax events s).1

theorem reachable_good (s : WinState) (hr : ReachableSlide s) : GoodWin s := by
  induction hr with
  | init => exact goodwin_init
  | moveStep fetch hgt apiMax target hr hf ih =>
      exact (move_good fetch hf hgt apiMax target _ ih).1
  | nextStep limit fetch hgt apiMax displacement hr hf ih =>
      exact (move_good fetch hf hgt apiMax _ _ ih).1
  | prevStep limit fetch hgt apiMax displacement hr hf ih =>
      exact (move_good fetch hf hgt apiMax _ _ ih).1
  | moveHeadStep fetch hgt apiMax displacement hr hf ih =>
      exact (move_good fetch hf hgt apiMax _ _ ih).1
  | moveTailStep fetch hgt apiMax displacement hr hf ih =>
      exact (move_good fetch hf hgt apiMax _ _ ih).1
  | firstStep pageSize fetch hgt apiMax events hr hf hp ih =>
      exact (move_good fetch hf hgt apiMax _ _ (pushFront_cleared_good events _ hp ih)).1
  | lastStep pageSize fetch hgt apiMax events hr hf hp ih =>
      exact (move_good fetch hf hgt apiMax _ _ (pushBack_cleared_good events _ hp ih)).1

theorem goodwin_range (s : WinState) (hs : GoodWin s) :
    (s.records.keys.Nonempty →
      s.records.keys = Finset.Icc (getHeadCounter s) (getTailCounter s)) ∧
    (s.records.keys = ∅ → getHeadCounter s = 0 ∧ getTailCounter s = 0) := by
  obtain ⟨h0, t0, hh0, hk⟩ := hs
  constructor
  · intro hne
    have hle : h0 ≤ t0 := by
      rcases hne with ⟨k, hmem⟩
      rw [hk] at hmem
      have := Finset.mem_Icc.mp hmem
      omega
    rw [getHead_icc s h0 t0 hk hle, getTail_icc s h0 t0 hk hle, hk]
  · intro hke
    exact ⟨getHead_empty s hke, getTail_empty s hke⟩

/-- States reachable from the initial empty window using only the two
limit-respecting paging operations `getNext` and `getPrevious`. -/
inductive ReachableNP (limit : ℤ) : WinState → Prop where
  | init : ReachableNP limit initState
  | nextStep {s : WinState} (fetch : ℤ → ℤ → List Event) (hgt : ℕ → ℤ)
      (apiMax : Option ℤ) (displacement : ℤ) :
      ReachableNP limit s → FetchOk fetch →
      ReachableNP limit (getNext limit fetch hgt apiMax displacement s).1
  | prevStep {s : WinState} (fetch : ℤ → ℤ → List Event) (hgt : ℕ → ℤ)
      (apiMax : Option ℤ) (displacement : ℤ) :
      ReachableNP limit s → FetchOk fetch →
      ReachableNP limit (getPrevious limit fetch hgt apiMax displacement s).1

theorem getNextTarget_width (limit : ℤ) (apiMax : Option ℤ) (d : ℤ) (s : WinState) :
    (getNextTarget limit apiMax d s).2 - (getNextTarget limit apiMax d s).1 ≤ limit := by
  simp only [getNextTarget, getRange]
  split_ifs with hc <;> omega

theorem getPreviousTarget_width (limit : ℤ) (d : ℤ) (s : WinState) :
    (getPreviousTarget limit d s).2 - (getPreviousTarget limit d s).1 ≤ limit := by
  simp only [getPreviousTarget, getRange]
  split_ifs with hc <;> omega

theorem moveBounds_width_le (apiMax : Option ℤ) (target : ℤ × ℤ) (s : WinState) :
    (moveBounds apiMax target s).2 - (moveBounds apiMax target s).1 ≤
      target.2 - target.1 := by
  simp only [moveBounds, getBoundedRange]
  omega

theorem move_count_le (fetch : ℤ → ℤ → List Event) (hF : FetchOk fetch) (hgt : ℕ → ℤ)
    (apiMax : Option ℤ) (target : ℤ × ℤ) (s : WinState) (hs : GoodWin s)
    (limit : ℤ) (hw : target.2 - target.1 ≤ limit)
    (hcur : (getRecordCount s : ℤ) ≤ limit + 1) :
    (getRecordCount (move fetch hgt apiMax target s).1 : ℤ) ≤ limit + 1 := by
  rcases (move_good fetch hF hgt apiMax target s hs).2 with heq | hsub
  · rw [heq]
    exact hcur
  · have hcard : getRecordCount (move fetch hgt apiMax target s).1 ≤
        (Finset.Icc (moveBounds apiMax target s).1 (moveBounds apiMax target s).2).card :=
      Finset.card_le_card hsub
    rw [Int.card_Icc] at hcard
    have hwid : (moveBounds apiMax target s).2 - (moveBounds apiMax target s).1 ≤ limit :=
      le_trans (moveBounds_width_le apiMax target s) hw
    omega

theorem reachableNP_count (limit : ℤ) (hl : 0 ≤ limit) (s : WinState)
    (hr : ReachableNP limit s) :
    GoodWin s ∧ (getRecordCount s : ℤ) ≤ limit + 1 := by
  induction hr with
  | init =>
      refine ⟨goodwin_init, ?_⟩
      have : getRecordCount initState = 0 := rfl
      omega
  | nextStep fetch hgt apiMax displacement hr hf ih =>
      exact ⟨(move_good fetch hf hgt apiMax _ _ ih.1).1,
        move_count_le fetch hf hgt apiMax _ _ ih.1 limit
          (getNextTarget_width limit apiMax displacement _) ih.2⟩
  | prevStep fetch hgt apiMax displacement hr hf ih =>
      exact ⟨(move_good fetch hf hgt apiMax _ _ ih.1).1,
        move_count_le fetch hf hgt apiMax _ _ ih.1 limit
          (getPreviousTarget_width limit displacement _) ih.2⟩

end Slide

namespace Slide

/-- A constant scroll-height hook used for concrete instances. -/
def hzero : ℕ → ℤ := fun _ => 0

theorem stdFetch_ok : FetchOk stdFetch := by
  intro lo hi _ _
  simp only [stdFetch, List.map_map]
  rw [show (Event.counter ∘ fun c : ℤ => Event.mk c 0 0 "") = id from rfl, List.map_id]

/-- C10: for all integer ranges `a` and `b`, `checkRangeOverlap` is
symmetric, and when the ranges overlap, `getOverlapArray b a` is the
elementwise negation of `getOverlapArray a b`, that is
`[b[0] - a[0], a[1] - b[1]]`. -/
theorem claim_c10_overlap_antisymmetry (a b : ℤ × ℤ) :
    checkRangeOverlap a b = checkRangeOverlap b a ∧
      getOverlapArray b a = (getOverlapArray a b).map (fun p => (-p.1, -p.2)) := by
  have hsym : checkRangeOverlap a b = checkRangeOverlap b a := by
    simp only [checkRangeOverlap, decide_eq_decide]
    omega
  refine ⟨hsym, ?_⟩
  by_cases hc : checkRangeOverlap a b = true
  · have hc' : checkRangeOverlap b a = true := by rw [← hsym]; exact hc
    rw [getOverlapArray, getOverlapArray, if_pos hc, if_pos hc', Option.map_some']
    simp only [Option.some.injEq, Prod.mk.injEq]
    constructor <;> ring
  · have hc0 : checkRangeOverlap a b = false := by
      revert hc
      cases checkRangeOverlap a b <;> simp
    have hc0' : checkRangeOverlap b a = false := by rw [← hsym]; exact hc0
    rw [getOverlapArray, getOverlapArray, hc0, hc0']
    simp

/-- C8: `getMaxCounter()` is `max(api.getMaxCounter(), getTailCounter())`
for a finite api value and `getTailCounter()` otherwise, so it is never
below `getTailCounter()`. -/
theorem claim_c8_log_bound (apiMax : Option ℤ) (c : ℤ) (s : WinState) :
    getMaxCounter (some c) s = max c (getTailCounter s) ∧
      getMaxCounter none s = getTailCounter s ∧
      getTailCounter s ≤ getMaxCounter apiMax s := by
  refine ⟨?_, rfl, tail_le_getMaxCounter apiMax s⟩
  simp only [getMaxCounter]
  exact max_comm _ _

/-- C1 counterexample: on the window holding counters `{1, 2, 3}`,
`popFront(1)` deletes the band `[tail - 1, tail] = [2, 3]` and leaves
`{1}`; the claim predicts removal of only the single highest counter,
which would leave `{1, 2}`. -/
theorem claim_c1_counterexample :
    (popFront 1 (mkWin 1 3)).records.keys = ({1} : Finset ℤ) ∧
      (popFront 1 (mkWin 1 3)).records.keys ≠ ({1, 2} : Finset ℤ) := by
  constructor <;> decide

/-- C1 (amended): for every window state and every integer `n ≥ 1`,
`popFront(n)` deletes precisely the line-span and identity entries of the
counters in the closed band `[tail - n, tail]` — `n + 1` counters on a
contiguous window holding more than `n` of them — and leaves every other
counter's entries unchanged; `popBack(n)` symmetrically deletes the band
`[head, head + n]`. -/
theorem claim_c1_amended (s : WinState) (n : ℤ) (hn : 0 < n) (k : ℤ) :
    ((popFront n s).records.lookup k =
        (if getTailCounter s - n ≤ k ∧ k ≤ getTailCounter s then none
          else s.records.lookup k) ∧
      (popFront n s).uuids.lookup k =
        (if getTailCounter s - n ≤ k ∧ k ≤ getTailCounter s then none
          else s.uuids.lookup k)) ∧
    ((popBack n s).records.lookup k =
        (if getHeadCounter s ≤ k ∧ k ≤ getHeadCounter s + n then none
          else s.records.lookup k) ∧
      (popBack n s).uuids.lookup k =
        (if getHeadCounter s ≤ k ∧ k ≤ getHeadCounter s + n then none
          else s.uuids.lookup k)) := by
  constructor
  · simp only [popFront]
    rw [if_neg (by omega : ¬ n ≤ 0)]
    exact ⟨lookup_eraseBand _ _ _ _, lookup_eraseBand _ _ _ _⟩
  · simp only [popBack]
    rw [if_neg (by omega : ¬ n ≤ 0)]
    exact ⟨lookup_eraseBand _ _ _ _, lookup_eraseBand _ _ _ _⟩

theorem claim_c1_amended_witness :
    (0 : ℤ) < 1 ∧ (popFront 1 (mkWin 1 3)).records.lookup 2 = none := by
  refine ⟨by decide, ?_⟩
  have h := (claim_c1_amended (mkWin 1 3) 1 (by decide) 2).1.1
  rw [h]
  decide

/-- C4 counterexample: on the window `[1, 2]` with the source reporting
max counter 10, `moveTail(-1)` computes `tailDisplacement =
max(tailRoom, -1) = 8` and targets high edge `10`, not `tail + delta =
1`: a negative delta is not honored. -/
theorem claim_c4_counterexample :
    (moveTailTarget (some 10) (-1) (mkWin 1 2)).2 = 10 ∧
      (moveTailTarget (some 10) (-1) (mkWin 1 2)).2 ≠ 2 + (-1) := by
  constructor <;> decide

/-- C4 (amended): `moveTail(delta)` leaves the low edge unchanged, and the
`max` (not `min`) against `tailRoom` makes the target's high bound at
least `maxCounter()` for every `delta` — negative deltas included — so
after `move`'s clamping the effective high edge is exactly
`maxCounter()`. -/
theorem claim_c4_amended (apiMax : Option ℤ) (d : ℤ) (s : WinState) :
    (moveTailTarget apiMax d s).1 = getHeadCounter s ∧
      getMaxCounter apiMax s ≤ (moveTailTarget apiMax d s).2 ∧
      (getBoundedRange (moveTailTarget apiMax d s) (1, getMaxCounter apiMax s)).2 =
        getMaxCounter apiMax s := by
  refine ⟨rfl, ?_, ?_⟩
  · simp only [moveTailTarget, getRange]
    omega
  · simp only [moveTailTarget, getBoundedRange, getRange]
    omega

end Slide

namespace Slide

theorem head_le_tail (s : WinState) (hne : s.records.keys.Nonempty) :
    getHeadCounter s ≤ getTailCounter s := by
  rw [getHeadCounter, getTailCounter, ← Finset.coe_min' hne, ← Finset.coe_max' hne,
    WithTop.untop'_coe, WithBot.unbot'_coe]
  exact Finset.min'_le _ _ (Finset.max'_mem _ hne)

/-- C6: an input whose clamp to `[1, maxCounter()]` leaves the low bound
above the high bound makes `move` a no-op: no Edge Operation, Window
State unchanged, resolved with the scroll-height measurement taken at
the time of the call (the only hook call of the operation). -/
theorem claim_c6_invalid_noop (fetch : ℤ → ℤ → List Event) (hgt : ℕ → ℤ)
    (apiMax : Option ℤ) (target : ℤ × ℤ) (s : WinState)
    (hb : (getBoundedRange target (1, getMaxCounter apiMax s)).2 <
      (getBoundedRange target (1, getMaxCounter apiMax s)).1) :
    move fetch hgt apiMax target s = (s, [SlideOp.measure], hgt 0) :=
  move_noop fetch hgt apiMax target s hb

theorem claim_c6_witness :
    (getBoundedRange (5, 10) (1, getMaxCounter none initState)).2 <
        (getBoundedRange (5, 10) (1, getMaxCounter none initState)).1 ∧
      move stdFetch hzero none (5, 10) initState =
        (initState, [SlideOp.measure], hzero 0) :=
  ⟨by decide, claim_c6_invalid_noop stdFetch hzero none (5, 10) initState (by decide)⟩

theorem mkWin_keys (lo hi : ℤ) : (mkWin lo hi).records.keys = Finset.Icc lo hi := rfl

theorem mkWin_tail (lo hi : ℤ) (h : lo ≤ hi) : getTailCounter (mkWin lo hi) = hi :=
  getTail_icc _ _ _ (mkWin_keys lo hi) h

theorem mkWin_head (lo hi : ℤ) (h : lo ≤ hi) : getHeadCounter (mkWin lo hi) = lo :=
  getHead_icc _ _ _ (mkWin_keys lo hi) h

/-- C7: with `OUTPUT_EVENT_LIMIT = 50`, window `[1, 40]` and
`maxCounter() = 100`, `getNext(20)` computes `tailDisplacement = 20` and
targets `move([10, 60])`; in general the next-target's high bound is
capped by `maxCounter()` and its width never exceeds the limit. -/
theorem claim_c7_advance_capping :
    (min (getMaxCounter (some 100) (mkWin 1 40) - getTailCounter (mkWin 1 40)) 20 = 20 ∧
        getNextTarget 50 (some 100) 20 (mkWin 1 40) = (10, 60)) ∧
      ∀ (limit : ℤ) (apiMax : Option ℤ) (d : ℤ) (s : WinState),
        (getNextTarget limit apiMax d s).2 ≤ getMaxCounter apiMax s ∧
          (getNextTarget limit apiMax d s).2 - (getNextTarget limit apiMax d s).1 ≤
            limit := by
  have h1 : getTailCounter (mkWin 1 40) = 40 := mkWin_tail 1 40 (by norm_num)
  have h2 : getHeadCounter (mkWin 1 40) = 1 := mkWin_head 1 40 (by norm_num)
  refine ⟨⟨?_, ?_⟩, ?_⟩
  · simp only [getMaxCounter, h1]
    decide
  · simp only [getNextTarget, getRange, getMaxCounter, h1, h2]
    decide
  intro limit apiMax d s
  refine ⟨?_, getNextTarget_width limit apiMax d s⟩
  simp only [getNextTarget, getRange]
  omega

/-- C5: when the target equals the current range of a non-empty window
with `head ≥ 1` and `tail ≤ maxCounter()`, `move` issues no Edge
Operation and no source call, performs both measurements, leaves Window
State unchanged, and resolves with the post-trim measurement. -/
theorem claim_c5_idempotent (fetch : ℤ → ℤ → List Event) (hgt : ℕ → ℤ)
    (apiMax : Option ℤ) (s : WinState) (hne : s.records.keys.Nonempty)
    (hh1 : 1 ≤ getHeadCounter s)
    (htm : getTailCounter s ≤ getMaxCounter apiMax s) :
    move fetch hgt apiMax (getRange s) s =
      (s, [SlideOp.measure, SlideOp.measure], hgt 1) := by
  have hht : getHeadCounter s ≤ getTailCounter s := head_le_tail s hne
  have hmb : getBoundedRange (getRange s) (1, getMaxCounter apiMax s) = getRange s := by
    simp only [getBoundedRange, getRange]
    rw [max_eq_left hh1, min_eq_left htm]
  have hchk : checkRangeOverlap (getHeadCounter s, getTailCounter s)
      (getHeadCounter s, getTailCounter s) = true := by
    simp only [checkRangeOverlap, decide_eq_true_eq]
    omega
  have hov : getOverlapArray (getRange s) (getRange s) = some (0, 0) := by
    simp only [getRange, getOverlapArray, hchk]
    simp
  simp only [move]
  rw [hmb, if_neg (show ¬ (getRange s).2 < (getRange s).1 from by
    simp only [getRange]
    omega)]
  rw [hov]
  norm_num

end Slide

namespace Slide

theorem claim_c5_witness :
    (mkWin 2 5).records.keys.Nonempty ∧ 1 ≤ getHeadCounter (mkWin 2 5) ∧
      getTailCounter (mkWin 2 5) ≤ getMaxCounter (some 10) (mkWin 2 5) ∧
      move stdFetch hzero (some 10) (getRange (mkWin 2 5)) (mkWin 2 5) =
        (mkWin 2 5, [SlideOp.measure, SlideOp.measure], hzero 1) :=
  ⟨by decide, by decide, by decide,
    claim_c5_idempotent stdFetch hzero (some 10) (mkWin 2 5) (by decide) (by decide)
      (by decide)⟩

theorem pushFront_uuid_keys (events : List Event) (s : WinState) :
    (pushFront events s).uuids.keys =
      s.uuids.keys ∪
        ((events.map Event.counter).filter
          (fun c => decide (getTailCounter s < c))).toFinset := by
  simp only [pushFront, keys_insertList, List.map_map]
  rw [show ((fun e : ℤ × String => e.1) ∘ fun e : Event => (e.counter, e.uuid)) =
    Event.counter from rfl]
  rw [map_counter_filter_gt]

theorem pushBack_uuid_keys (events : List Event) (s : WinState) :
    (pushBack events s).uuids.keys =
      s.uuids.keys ∪
        ((events.map Event.counter).filter
          (fun c => decide (c < getHeadCounter s ∨ getTailCounter s < c))).toFinset := by
  simp only [pushBack, getRange, keys_insertList, List.map_map]
  rw [show ((fun e : ℤ × String => e.1) ∘ fun e : Event => (e.counter, e.uuid)) =
    Event.counter from rfl]
  rw [map_counter_filter_out]

/-- States reachable from the initial empty window by arbitrary sequences
of the four Edge Operations with arbitrary arguments. -/
inductive ReachablePairs : WinState → Prop where
  | init : ReachablePairs initState
  | pushFrontStep {s : WinState} (events : List Event) :
      ReachablePairs s → ReachablePairs (pushFront events s)
  | pushBackStep {s : WinState} (events : List Event) :
      ReachablePairs s → ReachablePairs (pushBack events s)
  | popFrontStep {s : WinState} (count : ℤ) :
      ReachablePairs s → ReachablePairs (popFront count s)
  | popBackStep {s : WinState} (count : ℤ) :
      ReachablePairs s → ReachablePairs (popBack count s)

/-- C9: in every state reachable through the four Edge Operations, the
counter key set of the line-span map equals the counter key set of the
identity map — each operation inserts or deletes entries in the two maps
together. -/
theorem claim_c9_paired_maps (s : WinState) (hr : ReachablePairs s) :
    s.records.keys = s.uuids.keys := by
  induction hr with
  | init => rfl
  | pushFrontStep events hr ih =>
      rw [pushFront_keys, pushFront_uuid_keys, ih]
  | pushBackStep events hr ih =>
      rw [pushBack_keys, pushBack_uuid_keys, ih]
  | popFrontStep count hr ih =>
      simp only [popFront]
      split_ifs with hc
      · exact ih
      · simp only [keys_eraseBand, ih]
  | popBackStep count hr ih =>
      simp only [popBack]
      split_ifs with hc
      · exact ih
      · simp only [keys_eraseBand, ih]

theorem claim_c9_witness :
    (popFront 1 (pushFront (stdFetch 1 3) initState)).records.keys =
      (popFront 1 (pushFront (stdFetch 1 3) initState)).uuids.keys :=
  claim_c9_paired_maps _
    (ReachablePairs.popFrontStep 1 (ReachablePairs.pushFrontStep (stdFetch 1 3)
      ReachablePairs.init))

/-- C2: starting from the empty window, after every settled `move` or
paging operation — with the source answering each range request with
exactly one record per counter — the materialized counter set is exactly
the contiguous block from `head` to `tail`, and an empty window reports
`head = tail = 0`. -/
theorem claim_c2_contiguity (s : WinState) (hr : ReachableSlide s) :
    (s.records.keys.Nonempty →
      s.records.keys = Finset.Icc (getHeadCounter s) (getTailCounter s)) ∧
    (s.records.keys = ∅ → getHeadCounter s = 0 ∧ getTailCounter s = 0) :=
  goodwin_range s (reachable_good s hr)

theorem claim_c2_witness :
    ((move stdFetch hzero (some 5) (1, 5) initState).1.records.keys.Nonempty →
      (move stdFetch hzero (some 5) (1, 5) initState).1.records.keys =
        Finset.Icc (getHeadCounter (move stdFetch hzero (some 5) (1, 5) initState).1)
          (getTailCounter (move stdFetch hzero (some 5) (1, 5) initState).1)) ∧
    ((move stdFetch hzero (some 5) (1, 5) initState).1.records.keys = ∅ →
      getHeadCounter (move stdFetch hzero (some 5) (1, 5) initState).1 = 0 ∧
        getTailCounter (move stdFetch hzero (some 5) (1, 5) initState).1 = 0) :=
  claim_c2_contiguity _
    (ReachableSlide.moveStep stdFetch hzero (some 5) (1, 5) ReachableSlide.init
      stdFetch_ok)

set_option maxRecDepth 100000 in
/-- C3 counterexample: taking the spec's example value
`OUTPUT_EVENT_LIMIT = 50`, one `getFirst()` from the empty window — first
page `1..5`, `maxCounter() = 60` — materializes 60 records.  Every step
of this operation settles in the source: `clear()` on the empty window
appends nothing (count is 0), `pushFront` is a plain chained step, and
the internal `moveTail`'s `move` runs on the now non-empty window `[1,5]`
with clamped target `[1,60]`, whose overlap vector `(0, 55)` selects the
overlapping branch — no queued `clear`, only a `pushFront` of the fetched
range `[5, 60]` — so the window ends as `1..60` with
`getRecordCount() = 60 > 50`. -/
theorem claim_c3_counterexample :
    getRecordCount (getFirst 5 stdFetch hzero (some 60) (stdFetch 1 5) initState).1 = 60 ∧
      ¬ ((getRecordCount (getFirst 5 stdFetch hzero (some 60) (stdFetch 1 5) initState).1 : ℤ) ≤
        50) := by
  have hmain :
      getRecordCount (getFirst 5 stdFetch hzero (some 60) (stdFetch 1 5) initState).1 = 60 := by
    decide
  exact ⟨hmain, by rw [hmain]; decide⟩

/-- C3 (amended): only `getNext` and `getPrevious` consult the limit, and
they bound the target width, not the record count: for every sequence of
settled `getNext`/`getPrevious` operations from the empty window, with a
one-record-per-counter source and `OUTPUT_EVENT_LIMIT ≥ 0`,
`getRecordCount() ≤ OUTPUT_EVENT_LIMIT + 1`; no such bound holds for
`move`, `moveHead`, `moveTail`, `getFirst` or `getLast`, whose targets
are not width-limited. -/
theorem claim_c3_amended (limit : ℤ) (hl : 0 ≤ limit) (s : WinState)
    (hr : ReachableNP limit s) :
    (getRecordCount s : ℤ) ≤ limit + 1 :=
  (reachableNP_count limit hl s hr).2

theorem claim_c3_amended_witness :
    (0 : ℤ) ≤ 2 ∧
      (getRecordCount (getNext 2 stdFetch hzero (some 10) 5 initState).1 : ℤ) ≤ 2 + 1 :=
  ⟨by decide,
    claim_c3_amended 2 (by decide) (getNext 2 stdFetch hzero (some 10) 5 initState).1
      (ReachableNP.nextStep stdFetch hzero (some 10) 5 ReachableNP.init stdFetch_ok)⟩

end Slide
